import Mathlib

/-!
# Verification of the OP.GG ARAM build scraper (`src/main.py`)

A shallow embedding of the core pipeline of `main.py`:
the name normalizer, the page fetcher, the table extractor, the image
fetcher, the build aggregator and the worker-thread dispatch that feeds
the presentation layer.

HTML documents (BeautifulSoup parse trees) are modelled as a tree of
element and text nodes.  The BeautifulSoup queries used by the source
(`find` with a predicate, `find_all`, `find_parent`, `get_text`,
attribute access with `get`) are modelled as pure functions on that
tree.  Since `find_parent` walks parent pointers which a purely
functional tree does not have, every traversal carries the list of
ancestors of the current node (nearest ancestor first).

HTTP is modelled by passing an oracle `String → HttpResult` mapping a
URL to either a response (status code and body) or a raised exception;
`requests` exceptions are values of that oracle, so the `try/except`
blocks of the source become `match` arms.
-/

namespace OpGgAram

mutual

/-- An HTML parse tree node: an element with a tag name, attributes and
children, or a text node.  `NodeList` is a specialised list of children
so that all traversals are mutual structural recursions (which the
kernel can evaluate on concrete documents). -/
inductive Node where
  | elem (tag : String) (attrs : List (String × String)) (children : NodeList)
  | text (s : String)

/-- The children of a `Node.elem`, as a mutually-defined list. -/
inductive NodeList where
  | nil
  | cons (n : Node) (ns : NodeList)

end

/-- Build a `NodeList` from an ordinary list (used to write concrete
documents conveniently). -/
def NodeList.ofList : List Node → NodeList
  | [] => .nil
  | n :: ns => .cons n (NodeList.ofList ns)

/-- Convenience constructor for an element node. -/
def el (tag : String) (attrs : List (String × String)) (children : List Node) : Node :=
  Node.elem tag attrs (NodeList.ofList children)

/-- The tag name of a node (`None` for text nodes, like BeautifulSoup's
`NavigableString.name`). -/
def tagOf : Node → Option String
  | .elem t _ _ => some t
  | .text _ => none

/-- Attribute lookup, `tag.get(key)`: the value of the first attribute
with the given name, if any. -/
def attrGet (n : Node) (key : String) : Option String :=
  match n with
  | .elem _ attrs _ => (attrs.find? (fun p => p.1 == key)).map Prod.snd
  | .text _ => none

/-- The children of a node (text nodes have none). -/
def childrenNL : Node → NodeList
  | .elem _ _ cs => cs
  | .text _ => .nil

/-- Split a character list into maximal runs of non-whitespace characters
(Python's `str.split()` / the whitespace splitting BeautifulSoup applies
to multi-valued attributes). -/
def wordsAux (cur : List Char) : List Char → List String
  | [] => if cur.isEmpty then [] else [String.mk cur.reverse]
  | c :: rest =>
    if c.isWhitespace then
      (if cur.isEmpty then [] else [String.mk cur.reverse]) ++ wordsAux [] rest
    else wordsAux (c :: cur) rest

/-- The whitespace-separated words of a string. -/
def words (s : String) : List String := wordsAux [] s.toList

/-- Matching of `class_="c"`: the `class` attribute, split on whitespace,
contains `c` (html.parser exposes `class` as a whitespace-split list). -/
def hasClass (n : Node) (c : String) : Bool :=
  match attrGet n "class" with
  | some s => (words s).contains c
  | none => false

mutual

/-- Model of `tag.get_text()`: concatenation of every text fragment below the node. -/
def getTextNode : Node → String
  | .text s => s
  | .elem _ _ cs => getTextNL cs

/-- Model of `get_text()` over a list of children. -/
def getTextNL : NodeList → String
  | .nil => ""
  | .cons n ns => getTextNode n ++ getTextNL ns

end

/-- Model of `str.strip()`: drop leading and trailing whitespace characters. -/
def trimChars (l : List Char) : List Char :=
  ((l.dropWhile Char.isWhitespace).reverse.dropWhile Char.isWhitespace).reverse

mutual

/-- Model of `tag.get_text(strip=True)`: each text fragment is stripped of
surrounding whitespace, then all fragments are joined with no separator. -/
def getTextStripNode : Node → String
  | .text s => String.mk (trimChars s.toList)
  | .elem _ _ cs => getTextStripNL cs

/-- Model of `get_text(strip=True)` over a list of children. -/
def getTextStripNL : NodeList → String
  | .nil => ""
  | .cons n ns => getTextStripNode n ++ getTextStripNL ns

end

mutual

/-- Model of `find(predicate)` over a subtree, carrying ancestors: returns the first
element node (document order, the node itself checked before its
descendants) satisfying `p`, together with its ancestor list (nearest
first).  `anc` is the ancestor list of the visited node. -/
def findWA (p : Node → Bool) (anc : List Node) : Node → Option (Node × List Node)
  | .text _ => none
  | .elem t a cs =>
    if p (.elem t a cs) then some (.elem t a cs, anc)
    else findWAL p (.elem t a cs :: anc) cs

/-- Run of `findWA` over a list of children, first hit wins. -/
def findWAL (p : Node → Bool) (anc : List Node) : NodeList → Option (Node × List Node)
  | .nil => none
  | .cons n ns =>
    match findWA p anc n with
    | some r => some r
    | none => findWAL p anc ns

end

mutual

/-- Model of `find_all(predicate)` over a subtree, carrying ancestors: every element
node satisfying `p`, in document order, each with its ancestor list
(nearest first). -/
def findAllWA (p : Node → Bool) (anc : List Node) : Node → List (Node × List Node)
  | .text _ => []
  | .elem t a cs =>
    (if p (.elem t a cs) then [(Node.elem t a cs, anc)] else [])
      ++ findAllWAL p (.elem t a cs :: anc) cs

/-- Run of `findAllWA` over a list of children, results concatenated in order. -/
def findAllWAL (p : Node → Bool) (anc : List Node) : NodeList → List (Node × List Node)
  | .nil => []
  | .cons n ns => findAllWA p anc n ++ findAllWAL p anc ns

end

/-- Model of `tag.find(predicate)`: first matching element among the strict
descendants of `n` (BeautifulSoup's `find` does not match the tag itself);
the ancestor bookkeeping is dropped. -/
def findDesc (p : Node → Bool) (n : Node) : Option Node :=
  (findWAL p [n] (childrenNL n)).map Prod.fst

/-- Model of `tag.find_parent(...)`: first node of the ancestor list (nearest
first) satisfying `p`, returned together with its own ancestors. -/
def findAncestor (p : Node → Bool) : List Node → Option (Node × List Node)
  | [] => none
  | n :: rest => if p n then some (n, rest) else findAncestor p rest

/-- Auxiliary for substring search: does `sub` occur as a contiguous run
inside `hay`?  Checks each suffix of `hay` for `sub` as a prefix. -/
def strContainsAux (sub : List Char) : List Char → Bool
  | [] => sub.isEmpty
  | c :: rest => sub.isPrefixOf (c :: rest) || strContainsAux sub rest

/-- Python's `sub in s` on strings: substring containment. -/
def strContains (hay sub : String) : Bool :=
  strContainsAux sub.toList hay.toList

/-- Model of `str.lower()`, rendered on ASCII letters character by character
(every string the program lowercases and compares is ASCII). -/
def strLower (s : String) : String :=
  String.mk (s.toList.map Char.toLower)

/-- Model of `header_text.lower() in tag.get_text().lower()`. -/
def lowerContains (hay sub : String) : Bool :=
  strContains (strLower hay) (strLower sub)

/-- Python's `int()` applied to a string: surrounding whitespace is
ignored, then an optional sign followed by at least one decimal digit.
(Unicode digits and underscore digit grouping, which CPython also
accepts, are not modelled; no input in this development uses them.) -/
def pyInt (s : String) : Option Int :=
  let signed : Int × List Char :=
    match trimChars s.toList with
    | '+' :: rest => (1, rest)
    | '-' :: rest => (-1, rest)
    | l => (1, l)
  if signed.2 ≠ [] ∧ signed.2.all Char.isDigit then
    some (signed.1 * ((signed.2.foldl (fun acc c => acc * 10 + (c.toNat - 48)) 0 : Nat) : Int))
  else none

/-- Model of `normalize_champion_name`: lowercase the string, then delete every
character that is not a lowercase ASCII letter (the source uses
`re.sub(r'[^a-z]', '', name.lower())`; `str.lower` is modelled on ASCII,
non-ASCII characters are deleted by the filter either way). -/
def normalize_champion_name (name : String) : String :=
  let clean := strLower name
  String.mk (clean.toList.filter (fun c => 'a' ≤ c ∧ c ≤ 'z'))

/-- The `GameItem` dataclass: a single item within a build.  `count` is an
`Int` because Python's `int()` may produce any integer from a badge text. -/
structure GameItem where
  name : String
  image_url : String
  count : Int := 1
  image_data : Option (List Nat) := none
deriving DecidableEq, Repr

/-- The `BuildRow` dataclass: a row of data (items plus stats strings). -/
structure BuildRow where
  items : List GameItem
  win_rate : String
  pick_rate : String
  games : String
deriving DecidableEq, Repr

/-- Outcome of an HTTP GET as seen by the code: a response with a status
code and a body, or a raised exception. -/
inductive HttpResult (β : Type) where
  | response (status : Nat) (body : β)
  | exn (msg : String)
deriving DecidableEq, Repr

/-- Model of `OpGgAramScraper.fetch_page`.  `http` is the session's GET (headers and
the 10-second timeout live inside the oracle); `parse` is
`BeautifulSoup(·, "html.parser")`.  A 404 returns `none` directly; any
other 4xx/5xx status makes `raise_for_status` raise, which the
`except requests.RequestException` arm turns into `none`, as it does every
network-level exception; a success returns the parsed document. -/
def fetch_page (http : String → HttpResult String) (parse : String → Node)
    (url : String) : Option Node :=
  match http url with
  | .response status body =>
    if status == 404 then none
    else if 400 ≤ status ∧ status < 600 then none
    else some (parse body)
  | .exn _ => none

/-- The URL normalization at the top of `fetch_image_bytes`:
`if url.startswith("//"): url = "https:" + url`. -/
def normalize_img_url (url : String) : String :=
  if ("//".toList).isPrefixOf url.toList then "https:" ++ url else url

/-- Model of `OpGgAramScraper.fetch_image_bytes`: protocol-relative URLs get the
`https:` scheme, then a GET (5-second timeout inside the oracle); the
body bytes are returned only on status 200; any other status falls
through to `return None` and any exception is caught and yields `None`. -/
def fetch_image_bytes (http : String → HttpResult (List Nat)) (url : String) :
    Option (List Nat) :=
  match http (normalize_img_url url) with
  | .response status content => if status == 200 then some content else none
  | .exn _ => none

/-- Model of `img_tag.find_parent("div", class_="relative")` followed by
`parent_div.find("div", class_="absolute")`: the badge element holding a
stacked-item count, if any.  `anc` is the image tag's ancestor list
(nearest first). -/
def find_count_div (anc : List Node) : Option Node :=
  match findAncestor (fun n => tagOf n == some "div" && hasClass n "relative") anc with
  | none => none
  | some (parentDiv, _) =>
    findDesc (fun n => tagOf n == some "div" && hasClass n "absolute") parentDiv

/-- Model of `OpGgAramScraper._extract_item_details`: name from the `alt` attribute
(default `"Unknown Item"`), url from `src` (default `""`), count from the
badge text via `int()` with every failure path (no ancestor container,
no badge, unparsable text) giving 1. -/
def extract_item_details (img : Node) (anc : List Node) : GameItem :=
  let name := (attrGet img "alt").getD "Unknown Item"
  let src := (attrGet img "src").getD ""
  let count : Int :=
    match find_count_div anc with
    | none => 1
    | some countDiv =>
      match pyInt (getTextStripNode countDiv) with
      | some k => k
      | none => 1
  { name := name, image_url := src, count := count, image_data := none }

/-- Model of `row.find_all("td")` with ancestor bookkeeping: the data cells of a
table row (`anc` is the row's own ancestor list). -/
def row_cols (row : Node) (anc : List Node) : List (Node × List Node) :=
  findAllWAL (fun n => tagOf n == some "td") (row :: anc) (childrenNL row)

/-- The body of the row loop in `_extract_table_by_header`: a row with
fewer than 3 data cells is skipped (`continue`); otherwise the images of
cell 0 having a truthy `src` become items, and the stats default to
`"N/A"` when their sub-element is missing. -/
def processRow (row : Node) (anc : List Node) : Option BuildRow :=
  match row_cols row anc with
  | (c0, a0) :: (c1, _) :: (c2, _) :: _ =>
    let images := findAllWAL (fun n => tagOf n == some "img") (c0 :: a0) (childrenNL c0)
    let itemsList :=
      (images.filter (fun q => ((attrGet q.1 "src").getD "") ≠ "")).map
        (fun q => extract_item_details q.1 q.2)
    let pick_rate :=
      match findDesc (fun n => tagOf n == some "strong") c1 with
      | some s => getTextStripNode s
      | none => "N/A"
    let games :=
      match findDesc (fun n => tagOf n == some "span") c1 with
      | some s => getTextStripNode s
      | none => "N/A"
    let win_rate :=
      match findDesc (fun n => tagOf n == some "strong") c2 with
      | some s => getTextStripNode s
      | none => "N/A"
    some { items := itemsList, win_rate := win_rate, pick_rate := pick_rate, games := games }
  | _ => none

/-- The predicate of the header search in `_extract_table_by_header`:
`lambda tag: tag.name == "th" and header_text.lower() in tag.get_text().lower()`. -/
def thMatches (header_text : String) (n : Node) : Bool :=
  tagOf n == some "th" && lowerContains (getTextNode n) header_text

/-- Model of `OpGgAramScraper._extract_table_by_header`: find the first matching
header cell, walk up to its ancestor `table`, down to the table's
`tbody`, and convert each `tr` of the body; absence of header, table or
body yields the empty list. -/
def extract_table_by_header (soup : Node) (header_text : String) : List BuildRow :=
  match findWAL (thMatches header_text) [soup] (childrenNL soup) with
  | none => []
  | some (_, anc) =>
    match findAncestor (fun n => tagOf n == some "table") anc with
    | none => []
    | some (table, tanc) =>
      match findWAL (fun n => tagOf n == some "tbody") (table :: tanc) (childrenNL table) with
      | none => []
      | some (tbody, banc) =>
        let rows := findAllWAL (fun n => tagOf n == some "tr") (tbody :: banc) (childrenNL tbody)
        rows.filterMap (fun q => processRow q.1 q.2)

/-- The image pre-fetch step of `get_all_data`: an item with a truthy
(non-empty) `image_url` gets its `image_data` field set from the Image
Fetcher. -/
def fillItem (fetchImage : String → Option (List Nat)) (it : GameItem) : GameItem :=
  if it.image_url ≠ "" then { it with image_data := fetchImage it.image_url } else it

/-- The image pre-fetch pass over every row of a category. -/
def fillRows (fetchImage : String → Option (List Nat)) (rows : List BuildRow) : List BuildRow :=
  rows.map (fun r => { r with items := r.items.map (fillItem fetchImage) })

/-- Model of `OpGgAramScraper.get_all_data`: one Table Extractor run per fixed
category (the Skills category queried with the substring `"Skill"`),
then a flat pass setting `image_data` on every item with a non-empty
image url.  The in-place mutation of the Python items becomes a
functional update. -/
def get_all_data (fetchImage : String → Option (List Nat)) (soup : Node) :
    List (String × List BuildRow) :=
  let results := [
    ("Core Builds", extract_table_by_header soup "Core Builds"),
    ("Starter Items", extract_table_by_header soup "Starter Items"),
    ("Boots", extract_table_by_header soup "Boots"),
    ("Skills", extract_table_by_header soup "Skill")]
  results.map (fun kv => (kv.1, fillRows fetchImage kv.2))

/-- The signal the worker thread posts back to the UI thread: the handler
`_handle_error` ("Connection Error"), `_handle_not_found`
("Champion Not Found"), or `_update_ui` with the results. -/
inductive Signal where
  | connectionError
  | notFound
  | success (results : List (String × List BuildRow))
deriving DecidableEq, Repr

/-- Model of `AramBuildApp._worker_thread`: a falsy (`None`) page ⇒ the
connection-error handler; a page whose full text contains neither
`"Core Builds"` nor `"Starter Items"` ⇒ the not-found handler; otherwise
the aggregated results are handed to `_update_ui`. -/
def worker_thread (http : String → HttpResult String) (parse : String → Node)
    (imgHttp : String → HttpResult (List Nat)) (url : String) : Signal :=
  match fetch_page http parse url with
  | none => .connectionError
  | some soup =>
    if !(strContains (getTextNode soup) "Core Builds")
        && !(strContains (getTextNode soup) "Starter Items") then
      .notFound
    else
      .success (get_all_data (fetch_image_bytes imgHttp) soup)

/-! ### Concrete documents

Small concrete pages, shaped like the op.gg build tables the scraper
targets, used to exercise the pipeline on explicit inputs. -/

/-- An empty data cell. -/
def tdEmpty : Node := el "td" [] []

/-- An item image with a protocol-relative source. -/
def imgAxe : Node := el "img" [("src", "//img.example/ax.png"), ("alt", "Axe")] []

/-- A second item image, not wrapped in a stacked-count container. -/
def imgSword : Node := el "img" [("src", "//img.example/sword.png"), ("alt", "Sword")] []

/-- A stacked-count badge with the given text. -/
def badge (s : String) : Node := el "div" [("class", "absolute")] [Node.text s]

/-- An item container with a numeric badge: the `Axe` image stacked 3 times. -/
def divRel3 : Node := el "div" [("class", "relative")] [imgAxe, badge "3"]

/-- An item container whose badge text `"x"` is not numeric. -/
def divRelX : Node := el "div" [("class", "relative")] [imgAxe, badge "x"]

/-- An item container whose badge text is the numeric string `"0"`. -/
def divRel0 : Node := el "div" [("class", "relative")] [imgAxe, badge "0"]

/-- A populated item cell: one badged image, one image with an empty
`src`, one with no `src` attribute at all, and one plain image. -/
def itemCell : Node := el "td" [] [
  divRel3,
  el "img" [("src", ""), ("alt", "NoSrc")] [],
  el "img" [("alt", "AttrLess")] [],
  imgSword]

/-- A stats cell with both the emphasized and the secondary sub-element. -/
def statsCell : Node := el "td" [] [
  el "strong" [] [Node.text "55.1%"],
  el "span" [] [Node.text "1,234"]]

/-- A win-rate cell with its emphasized sub-element. -/
def winCell : Node := el "td" [] [el "strong" [] [Node.text "60.2%"]]

/-- A fully populated table row (3 data cells). -/
def rowFull : Node := el "tr" [] [itemCell, statsCell, winCell]

/-- A malformed row with only 2 data cells. -/
def rowTwoCells : Node := el "tr" [] [tdEmpty, tdEmpty]

/-- A row with 3 data cells but no stats sub-elements and no images. -/
def rowBare : Node := el "tr" [] [tdEmpty, tdEmpty, tdEmpty]

/-- The Core Builds table of `docA`; its heading reads
`"Core Builds Overview"`. -/
def coreTable : Node := el "table" [] [
  el "thead" [] [el "tr" [] [el "th" [] [Node.text "Core Builds Overview"]]],
  el "tbody" [] [rowFull, rowTwoCells, rowBare]]

/-- The Starter Items table of `docA`. -/
def starterTable : Node := el "table" [] [
  el "thead" [] [el "tr" [] [el "th" [] [Node.text "Starter Items"]]],
  el "tbody" [] [el "tr" [] [
    el "td" [] [el "img" [("src", "s.png"), ("alt", "Potion")] []],
    tdEmpty, tdEmpty]]]

/-- A page with a Core Builds table and a Starter Items table but no
Boots and no Skills header. -/
def docA : Node := el "html" [] [el "body" [] [coreTable, starterTable]]

/-- The rows `extract_table_by_header` produces from `docA`'s Core Builds
table (the 2-cell row is dropped; the bare row degrades to sentinels). -/
def docARows : List BuildRow := [
  { items := [
      { name := "Axe", image_url := "//img.example/ax.png", count := 3, image_data := none },
      { name := "Sword", image_url := "//img.example/sword.png", count := 1, image_data := none }],
    win_rate := "60.2%", pick_rate := "55.1%", games := "1,234" },
  { items := [], win_rate := "N/A", pick_rate := "N/A", games := "N/A" }]

/-- A page whose only badge text is `"0"`. -/
def docZero : Node := el "html" [] [el "body" [] [
  el "table" [] [
    el "thead" [] [el "tr" [] [el "th" [] [Node.text "Core Builds"]]],
    el "tbody" [] [el "tr" [] [
      el "td" [] [el "div" [("class", "relative")] [
        el "img" [("src", "u.png"), ("alt", "Axe")] [], badge "0"]],
      tdEmpty, tdEmpty]]]]]

/-- A one-row table whose heading contains `"Core Builds"` and whose only
distinguishing content is the secondary stats text `marker`. -/
def markedTable (marker : String) : Node := el "table" [] [
  el "thead" [] [el "tr" [] [el "th" [] [Node.text "Core Builds"]]],
  el "tbody" [] [el "tr" [] [
    tdEmpty, el "td" [] [el "span" [] [Node.text marker]], tdEmpty]]]

/-- A page with two tables whose headings both contain `"Core Builds"`:
the extractor must use the first one. -/
def docTwo : Node := el "html" [] [el "body" [] [
  markedTable "first", markedTable "second"]]

/-- A page with a matching header cell that has no ancestor table. -/
def docHeaderNoTable : Node := el "html" [] [el "body" [] [
  el "th" [] [Node.text "Core Builds"]]]

/-- A page whose matching table has no `tbody`. -/
def docTableNoBody : Node := el "html" [] [el "body" [] [
  el "table" [] [el "thead" [] [el "tr" [] [el "th" [] [Node.text "Core Builds"]]]]]]

/-! ### Supporting lemmas -/

mutual

/-- A node returned by `findWA` satisfies the search predicate. -/
theorem findWA_sat (p : Node → Bool) (anc : List Node) (n : Node) (r : Node) (a : List Node)
    (h : findWA p anc n = some (r, a)) : p r = true := by
  cases n with
  | text s => simp [findWA] at h
  | elem t attrs cs =>
    rw [findWA] at h
    by_cases hp : p (.elem t attrs cs)
    · simp only [hp, if_true] at h
      cases h
      exact hp
    · simp only [hp, if_false] at h
      exact findWAL_sat p _ cs r a h

/-- A node returned by `findWAL` satisfies the search predicate. -/
theorem findWAL_sat (p : Node → Bool) (anc : List Node) (nl : NodeList) (r : Node)
    (a : List Node) (h : findWAL p anc nl = some (r, a)) : p r = true := by
  cases nl with
  | nil => simp [findWAL] at h
  | cons n ns =>
    rw [findWAL] at h
    cases hw : findWA p anc n with
    | some rr =>
      rw [hw] at h
      cases h
      exact findWA_sat p anc n r a hw
    | none =>
      rw [hw] at h
      exact findWAL_sat p anc ns r a h

end

/-- Rows with fewer than 3 data cells are skipped by the row loop. -/
theorem processRow_none_of_short (row : Node) (anc : List Node)
    (h : (row_cols row anc).length < 3) : processRow row anc = none := by
  rcases hc : row_cols row anc with _ | ⟨a, _ | ⟨b, _ | ⟨c, t⟩⟩⟩
  · simp [processRow, hc]
  · simp [processRow, hc]
  · simp [processRow, hc]
  · rw [hc] at h; simp at h; omega

/-- Rows with at least 3 data cells yield exactly one `BuildRow`. -/
theorem processRow_isSome_of_three (row : Node) (anc : List Node)
    (h : 3 ≤ (row_cols row anc).length) : (processRow row anc).isSome = true := by
  rcases hc : row_cols row anc with _ | ⟨a, _ | ⟨b, _ | ⟨c, t⟩⟩⟩
  · rw [hc] at h; simp at h
  · rw [hc] at h; simp at h
  · rw [hc] at h; simp at h
  · simp [processRow, hc]

/-- When the stats sub-elements are absent, the produced row carries the
sentinel `"N/A"` in all three stats fields. -/
theorem processRow_defaults (row : Node) (anc : List Node)
    (c0 : Node) (a0 : List Node) (c1 : Node) (a1 : List Node) (c2 : Node) (a2 : List Node)
    (rest : List (Node × List Node))
    (hc : row_cols row anc = (c0, a0) :: (c1, a1) :: (c2, a2) :: rest)
    (h1 : findDesc (fun n => tagOf n == some "strong") c1 = none)
    (h2 : findDesc (fun n => tagOf n == some "span") c1 = none)
    (h3 : findDesc (fun n => tagOf n == some "strong") c2 = none) :
    ∃ br, processRow row anc = some br ∧
      br.win_rate = "N/A" ∧ br.pick_rate = "N/A" ∧ br.games = "N/A" := by
  refine ⟨_, by rw [processRow, hc], ?_, ?_, ?_⟩ <;> simp [h1, h2, h3]

/-- Every item of a produced row stems from an image whose `src`
attribute is present and non-empty. -/
theorem processRow_items_src (row : Node) (anc : List Node) (br : BuildRow)
    (h : processRow row anc = some br) (it : GameItem) (hit : it ∈ br.items) :
    it.image_url ≠ "" := by
  rcases hc : row_cols row anc with _ | ⟨a, _ | ⟨b, _ | ⟨⟨c2n, c2a⟩, t⟩⟩⟩ <;>
    rw [processRow, hc] at h
  · exact absurd h (by simp)
  · exact absurd h (by simp)
  · exact absurd h (by simp)
  · obtain ⟨c0n, c0a⟩ := a
    obtain ⟨c1n, c1a⟩ := b
    cases h
    simp only [List.mem_map] at hit
    obtain ⟨q, hq, hext⟩ := hit
    rw [List.mem_filter] at hq
    subst hext
    simp only [extract_item_details]
    intro hcon
    exact absurd hcon (by simpa using hq.2)

/-- Absent header: the extractor returns the empty list. -/
theorem extract_nil_of_no_header (soup : Node) (ht : String)
    (h : findWAL (thMatches ht) [soup] (childrenNL soup) = none) :
    extract_table_by_header soup ht = [] := by
  rw [extract_table_by_header, h]

/-- Matched header without an ancestor table: empty list. -/
theorem extract_nil_of_no_table (soup : Node) (ht : String) (hd : Node) (anc : List Node)
    (h : findWAL (thMatches ht) [soup] (childrenNL soup) = some (hd, anc))
    (h2 : findAncestor (fun n => tagOf n == some "table") anc = none) :
    extract_table_by_header soup ht = [] := by
  simp only [extract_table_by_header, h, h2]

/-- Matched header and table but no `tbody`: empty list. -/
theorem extract_nil_of_no_tbody (soup : Node) (ht : String) (hd : Node) (anc : List Node)
    (table : Node) (tanc : List Node)
    (h : findWAL (thMatches ht) [soup] (childrenNL soup) = some (hd, anc))
    (h2 : findAncestor (fun n => tagOf n == some "table") anc = some (table, tanc))
    (h3 : findWAL (fun n => tagOf n == some "tbody") (table :: tanc) (childrenNL table) = none) :
    extract_table_by_header soup ht = [] := by
  simp only [extract_table_by_header, h, h2, h3]

/-- Every item of every extracted row has a non-empty image url. -/
theorem extract_items_src (soup : Node) (ht : String) (br : BuildRow)
    (hbr : br ∈ extract_table_by_header soup ht) (it : GameItem) (hit : it ∈ br.items) :
    it.image_url ≠ "" := by
  rw [extract_table_by_header] at hbr
  cases hf : findWAL (thMatches ht) [soup] (childrenNL soup) with
  | none => rw [hf] at hbr; simp at hbr
  | some r =>
    obtain ⟨hd, anc⟩ := r
    simp only [hf] at hbr
    cases ha : findAncestor (fun n => tagOf n == some "table") anc with
    | none => simp only [ha] at hbr; simp at hbr
    | some r2 =>
      obtain ⟨table, tanc⟩ := r2
      simp only [ha] at hbr
      cases hb : findWAL (fun n => tagOf n == some "tbody") (table :: tanc) (childrenNL table) with
      | none => simp only [hb] at hbr; simp at hbr
      | some r3 =>
        obtain ⟨tbody, banc⟩ := r3
        simp only [hb] at hbr
        simp only [List.mem_filterMap] at hbr
        obtain ⟨q, _, hpr⟩ := hbr
        exact processRow_items_src q.1 q.2 br hpr it hit

/-- The image pre-fetch step never touches the image url. -/
theorem fillItem_image_url (f : String → Option (List Nat)) (it : GameItem) :
    (fillItem f it).image_url = it.image_url := by
  rw [fillItem]; split <;> rfl

/-- Non-empty image urls survive the image pre-fetch pass. -/
theorem fillRows_items_src (f : String → Option (List Nat)) (soup : Node) (ht : String)
    (br : BuildRow) (hbr : br ∈ fillRows f (extract_table_by_header soup ht))
    (it : GameItem) (hit : it ∈ br.items) : it.image_url ≠ "" := by
  rw [fillRows] at hbr
  simp only [List.mem_map] at hbr
  obtain ⟨r, hr, hbr⟩ := hbr
  subst hbr
  simp only [List.mem_map] at hit
  obtain ⟨it0, hit0, hfill⟩ := hit
  subst hfill
  rw [fillItem_image_url]
  exact extract_items_src soup ht r hr it0 hit0

/-- Every item of every category of the aggregated result has a
non-empty image url. -/
theorem get_all_data_items_src (f : String → Option (List Nat)) (soup : Node)
    (cat : String) (rows : List BuildRow) (hmem : (cat, rows) ∈ get_all_data f soup)
    (br : BuildRow) (hbr : br ∈ rows) (it : GameItem) (hit : it ∈ br.items) :
    it.image_url ≠ "" := by
  simp only [get_all_data, List.map, List.mem_cons, List.not_mem_nil, or_false,
    Prod.mk.injEq] at hmem
  rcases hmem with ⟨_, h⟩ | ⟨_, h⟩ | ⟨_, h⟩ | ⟨_, h⟩ <;>
    (subst h; exact fillRows_items_src f soup _ br hbr it hit)

/-! ### Claims -/

/-- Claim C1.  The claim says an HTTP 404 yields the explicit "not found"
signal at the presentation boundary, and never the "connection error"
signal.  The code does the opposite: `fetch_page` maps a 404 to `None`,
and `_worker_thread` maps every `None` page to `_handle_error`, the
"Connection Error" handler; `_handle_not_found` is only reachable from a
successful (2xx) page missing the category markers.  This theorem
evaluates the model at the failing input: whatever the parser, the image
oracle and the URL, a 404 main-page response produces the
connection-error signal, not the not-found signal. -/
theorem worker_404_yields_connection_error (parse : String → Node)
    (imgHttp : String → HttpResult (List Nat)) (body url : String) :
    worker_thread (fun _ => HttpResult.response 404 body) parse imgHttp url =
      Signal.connectionError ∧
    worker_thread (fun _ => HttpResult.response 404 body) parse imgHttp url ≠
      Signal.notFound := by
  constructor <;> simp [worker_thread, fetch_page]

/-- Claim C2.  Row processing: a row with fewer than 3 data cells yields
no `BuildRow` (skipped, not fatal — the model is total); a row with 3 or
more data cells yields exactly one `BuildRow`, and when the stats
sub-elements (`strong` in cells 1 and 2, `span` in cell 1) are absent,
win rate, pick rate and games each default to the literal `"N/A"`. -/
theorem row_processing_spec :
    (∀ row anc, (row_cols row anc).length < 3 → processRow row anc = none) ∧
    (∀ row anc, 3 ≤ (row_cols row anc).length → (processRow row anc).isSome = true) ∧
    (∀ row anc c0 a0 c1 a1 c2 a2 rest,
      row_cols row anc = (c0, a0) :: (c1, a1) :: (c2, a2) :: rest →
      findDesc (fun n => tagOf n == some "strong") c1 = none →
      findDesc (fun n => tagOf n == some "span") c1 = none →
      findDesc (fun n => tagOf n == some "strong") c2 = none →
      ∃ br, processRow row anc = some br ∧
        br.win_rate = "N/A" ∧ br.pick_rate = "N/A" ∧ br.games = "N/A") :=
  ⟨processRow_none_of_short, processRow_isSome_of_three,
   fun row anc c0 a0 c1 a1 c2 a2 rest hc h1 h2 h3 =>
     processRow_defaults row anc c0 a0 c1 a1 c2 a2 rest hc h1 h2 h3⟩

/-- Witness for C2: the 2-cell row of the concrete page is dropped, the
full row is kept, and the bare 3-cell row degrades to `"N/A"` stats. -/
theorem row_processing_spec_witness :
    processRow rowTwoCells [] = none ∧
    (processRow rowFull []).isSome = true ∧
    (∃ br, processRow rowBare [] = some br ∧
      br.win_rate = "N/A" ∧ br.pick_rate = "N/A" ∧ br.games = "N/A") :=
  ⟨row_processing_spec.1 rowTwoCells [] (by decide),
   row_processing_spec.2.1 rowFull [] (by decide),
   row_processing_spec.2.2 rowBare [] tdEmpty [rowBare] tdEmpty [rowBare] tdEmpty [rowBare] []
     rfl rfl rfl rfl⟩

/-- Claim C3.  Item stack count extraction: with no badge (no `relative`
ancestor container or no `absolute` badge inside it) the count is 1;
with a badge the count is the `int()`-parse of its stripped text,
defaulting to 1 when unparsable; a badge reading `"3"` gives 3 and a
badge reading `"x"` gives 1.  The model is a total function: no input
raises or fails the row. -/
theorem item_count_spec :
    (∀ img anc, find_count_div anc = none → (extract_item_details img anc).count = 1) ∧
    (∀ img anc cd, find_count_div anc = some cd →
      (extract_item_details img anc).count = (pyInt (getTextStripNode cd)).getD 1) ∧
    (extract_item_details imgAxe [divRel3]).count = 3 ∧
    (extract_item_details imgAxe [divRelX]).count = 1 := by
  refine ⟨?_, ?_, by decide, by decide⟩
  · intro img anc h
    simp [extract_item_details, h]
  · intro img anc cd h
    cases hp : pyInt (getTextStripNode cd) <;>
      simp [extract_item_details, h, hp]

/-- Witness for C3: no container at all gives count 1, and the `"x"` badge
of the concrete container gives the unparsable default. -/
theorem item_count_spec_witness :
    (extract_item_details imgAxe []).count = 1 ∧
    (extract_item_details imgAxe [divRelX]).count =
      (pyInt (getTextStripNode (badge "x"))).getD 1 :=
  ⟨item_count_spec.1 imgAxe [] rfl,
   item_count_spec.2.1 imgAxe [divRelX] (badge "x") rfl⟩

/-- Claim C4.  The Name Normalizer maps every input to a string of
lowercase `a`–`z` characters only (everything else is deleted after
lowercasing), with the documented examples; it is a total pure function
(determinism and absence of side effects are inherent in the model). -/
theorem normalize_champion_name_spec :
    (∀ s c, c ∈ (normalize_champion_name s).toList → 'a' ≤ c ∧ c ≤ 'z') ∧
    normalize_champion_name (String.mk ['V', 'e', 'l', Char.ofNat 39, 'K', 'o', 'z']) =
      "velkoz" ∧
    normalize_champion_name "Dr. Mundo" = "drmundo" ∧
    normalize_champion_name "Lee Sin" = "leesin" ∧
    normalize_champion_name "Nunu & Willump" = "nunuwillump" ∧
    normalize_champion_name "" = "" := by
  refine ⟨?_, by decide, by decide, by decide, by decide, by decide⟩
  intro s c hc
  simp only [normalize_champion_name, String.toList] at hc
  exact of_decide_eq_true (List.mem_filter.mp hc).2

/-- Witness for C4: the letter `r` of the normalized `"Dr. Mundo"` is in
the `a`–`z` range. -/
theorem normalize_champion_name_spec_witness : 'a' ≤ 'r' ∧ 'r' ≤ 'z' :=
  normalize_champion_name_spec.1 "Dr. Mundo" 'r' (by decide)

/-- Claim C5.  The Table Extractor: the selected heading cell is a `th`
whose text contains the query case-insensitively; absence of a matching
header, of an ancestor table, or of a table body each yield the empty
list, not an error; the heading `"Core Builds Overview"` matches the
query `"Core Builds"` on the concrete page; with two matching headings
the first one in document order is used. -/
theorem table_extractor_spec :
    (∀ soup ht, findWAL (thMatches ht) [soup] (childrenNL soup) = none →
      extract_table_by_header soup ht = []) ∧
    (∀ soup ht hd anc, findWAL (thMatches ht) [soup] (childrenNL soup) = some (hd, anc) →
      findAncestor (fun n => tagOf n == some "table") anc = none →
      extract_table_by_header soup ht = []) ∧
    (∀ soup ht hd anc table tanc,
      findWAL (thMatches ht) [soup] (childrenNL soup) = some (hd, anc) →
      findAncestor (fun n => tagOf n == some "table") anc = some (table, tanc) →
      findWAL (fun n => tagOf n == some "tbody") (table :: tanc) (childrenNL table) = none →
      extract_table_by_header soup ht = []) ∧
    (∀ soup ht hd anc, findWAL (thMatches ht) [soup] (childrenNL soup) = some (hd, anc) →
      thMatches ht hd = true) ∧
    extract_table_by_header docA "Core Builds" = docARows ∧
    extract_table_by_header docTwo "Core Builds" =
      [{ items := [], win_rate := "N/A", pick_rate := "N/A", games := "first" }] :=
  ⟨extract_nil_of_no_header, extract_nil_of_no_table, extract_nil_of_no_tbody,
   fun _ _ hd anc h => findWAL_sat _ _ _ hd anc h,
   by decide, by decide⟩

/-- Witness for C5: the concrete page without a Boots heading yields the
empty Boots category; a heading outside any table and a table without a
body also yield empty results; the matched heading of `docA` satisfies
the predicate. -/
theorem table_extractor_spec_witness :
    extract_table_by_header docA "Boots" = [] ∧
    extract_table_by_header docHeaderNoTable "Core Builds" = [] ∧
    extract_table_by_header docTableNoBody "Core Builds" = [] ∧
    thMatches "Core Builds" (el "th" [] [Node.text "Core Builds Overview"]) = true :=
  ⟨table_extractor_spec.1 docA "Boots" rfl,
   table_extractor_spec.2.1 docHeaderNoTable "Core Builds" _ _ rfl rfl,
   table_extractor_spec.2.2.1 docTableNoBody "Core Builds" _ _ _ _ rfl rfl rfl,
   table_extractor_spec.2.2.2.1 docA "Core Builds" _ _ rfl⟩

/-- Claim C6.  The Build Aggregator runs the Table Extractor once per
fixed category, with the labels `"Core Builds"`, `"Starter Items"`,
`"Boots"` and the substring `"Skill"` for the Skills category; on a
document with no `th` containing `"Boots"` the Boots category is the
empty sequence while the other three categories are the (image-filled)
extraction of the same document, unaffected. -/
theorem build_aggregator_spec :
    (∀ f soup, get_all_data f soup = [
      ("Core Builds", fillRows f (extract_table_by_header soup "Core Builds")),
      ("Starter Items", fillRows f (extract_table_by_header soup "Starter Items")),
      ("Boots", fillRows f (extract_table_by_header soup "Boots")),
      ("Skills", fillRows f (extract_table_by_header soup "Skill"))]) ∧
    (∀ f soup, findWAL (thMatches "Boots") [soup] (childrenNL soup) = none →
      get_all_data f soup = [
        ("Core Builds", fillRows f (extract_table_by_header soup "Core Builds")),
        ("Starter Items", fillRows f (extract_table_by_header soup "Starter Items")),
        ("Boots", []),
        ("Skills", fillRows f (extract_table_by_header soup "Skill"))]) := by
  refine ⟨fun f soup => rfl, fun f soup h => ?_⟩
  have hb := extract_nil_of_no_header soup "Boots" h
  simp [get_all_data, hb, fillRows]

/-- Witness for C6: the concrete page has no Boots heading, so the Boots
category is empty and the rest extract unaffected. -/
theorem build_aggregator_spec_witness :
    get_all_data (fun _ => none) docA = [
      ("Core Builds", fillRows (fun _ => none) (extract_table_by_header docA "Core Builds")),
      ("Starter Items", fillRows (fun _ => none) (extract_table_by_header docA "Starter Items")),
      ("Boots", []),
      ("Skills", fillRows (fun _ => none) (extract_table_by_header docA "Skill"))] :=
  build_aggregator_spec.2 (fun _ => none) docA rfl

/-- Claim C7.  The Image Fetcher: a URL starting with `"//"` is first
rewritten with the prefix `"https:"`; the raw body bytes are returned
exactly on HTTP 200; every other status and every exception yield the
absence signal `none` — the model is a total function, so no exception
propagates to the caller. -/
theorem image_fetcher_spec :
    (∀ url, ("//".toList).isPrefixOf url.toList = true →
      normalize_img_url url = "https:" ++ url) ∧
    (∀ http url b, http (normalize_img_url url) = HttpResult.response 200 b →
      fetch_image_bytes http url = some b) ∧
    (∀ http url s b, http (normalize_img_url url) = HttpResult.response s b → s ≠ 200 →
      fetch_image_bytes http url = none) ∧
    (∀ http url m, http (normalize_img_url url) = HttpResult.exn m →
      fetch_image_bytes http url = none) := by
  refine ⟨?_, ?_, ?_, ?_⟩
  · intro url h
    rw [normalize_img_url, if_pos h]
  · intro http url b h
    simp [fetch_image_bytes, h]
  · intro http url s b h hs
    simp [fetch_image_bytes, h, hs]
  · intro http url m h
    simp [fetch_image_bytes, h]

/-- Witness for C7: a protocol-relative icon URL is rewritten; a 200
response returns its bytes; a 404 response and a raised exception both
return the absence signal. -/
theorem image_fetcher_spec_witness :
    normalize_img_url "//cdn/a.png" = "https:" ++ "//cdn/a.png" ∧
    fetch_image_bytes (fun _ => HttpResult.response 200 [9, 9]) "//cdn/a.png" = some [9, 9] ∧
    fetch_image_bytes (fun _ => HttpResult.response 404 [9, 9]) "//cdn/a.png" = none ∧
    fetch_image_bytes (fun _ => HttpResult.exn "timed out") "icon.png" = none :=
  ⟨image_fetcher_spec.1 "//cdn/a.png" rfl,
   image_fetcher_spec.2.1 (fun _ => HttpResult.response 200 [9, 9]) "//cdn/a.png" [9, 9] rfl,
   image_fetcher_spec.2.2.1 (fun _ => HttpResult.response 404 [9, 9]) "//cdn/a.png" 404 [9, 9]
     rfl (by decide),
   image_fetcher_spec.2.2.2 (fun _ => HttpResult.exn "timed out") "icon.png" "timed out" rfl⟩

/-- Counterexample to claim C8 as stated: the extraction pipeline run on
a page whose badge text is the numeric string `"0"` constructs an item
whose stack count is 0, which is not positive — `int()`-parsable badge
text is taken verbatim, with no positivity check. -/
theorem item_count_zero_counterexample :
    extract_table_by_header docZero "Core Builds" =
      [{ items := [{ name := "Axe", image_url := "u.png", count := 0, image_data := none }],
         win_rate := "N/A", pick_rate := "N/A", games := "N/A" }] ∧
    ¬ (0 : Int) > 0 := by
  exact ⟨by decide, by decide⟩

/-- Claim C8, amended.  An item's stack count defaults to 1 when no badge
is present or its text is unparsable, and otherwise equals the parsed
badge integer verbatim; hence the count is positive provided every
parsable badge text in scope parses to a positive integer (the code does
not itself enforce positivity, see the counterexample). -/
theorem item_count_positive_amended (img : Node) (anc : List Node)
    (h : ∀ cd, find_count_div anc = some cd →
      ∀ k, pyInt (getTextStripNode cd) = some k → 0 < k) :
    0 < (extract_item_details img anc).count := by
  cases hf : find_count_div anc with
  | none => simp only [extract_item_details, hf]; decide
  | some cd =>
    cases hp : pyInt (getTextStripNode cd) with
    | none => simp only [extract_item_details, hf, hp]; decide
    | some k =>
      simp only [extract_item_details, hf, hp]
      exact h cd hf k hp

/-- Witness for the amended C8: the badge `"3"` container yields a
positive count. -/
theorem item_count_positive_amended_witness :
    0 < (extract_item_details imgAxe [divRel3]).count :=
  item_count_positive_amended imgAxe [divRel3] (by
    intro cd hcd k hk
    rw [show find_count_div [divRel3] = some (badge "3") from rfl] at hcd
    injection hcd with h
    subst h
    rw [show pyInt (getTextStripNode (badge "3")) = some 3 from rfl] at hk
    injection hk with h2
    subst h2
    decide)

/-- Claim C9.  The Table Extractor is a pure query: the BeautifulSoup
calls the source makes (`find`, `find_parent`, `find_all`, `get_text`,
attribute reads) never mutate the tree, so the extractor is modelled as
a function of the document and running it twice on the same parsed
document with the same header text yields results equal by value. -/
theorem table_extractor_idempotent (soup : Node) (ht : String) :
    extract_table_by_header soup ht = extract_table_by_header soup ht := rfl

/-- Claim C10.  Every item of every row returned by the Table Extractor
has a non-empty image source (images with a missing or empty `src` are
filtered out of the row), and consequently every item of every category
of the aggregated result — whose per-item download condition is exactly
`image_url ≠ ""` — has a non-empty image source as well. -/
theorem extracted_items_nonempty_src :
    (∀ soup ht br it, br ∈ extract_table_by_header soup ht → it ∈ br.items →
      it.image_url ≠ "") ∧
    (∀ f soup cat rows br it, (cat, rows) ∈ get_all_data f soup → br ∈ rows →
      it ∈ br.items → it.image_url ≠ "") :=
  ⟨fun soup ht br it hbr hit => extract_items_src soup ht br hbr it hit,
   fun f soup cat rows br it hmem hbr hit =>
     get_all_data_items_src f soup cat rows hmem br hbr it hit⟩

/-- Witness for C10: the Axe item of the concrete page's first Core
Builds row has a non-empty image source. -/
theorem extracted_items_nonempty_src_witness :
    ({ name := "Axe", image_url := "//img.example/ax.png", count := 3,
       image_data := none } : GameItem).image_url ≠ "" :=
  extracted_items_nonempty_src.1 docA "Core Builds"
    { items := [
        { name := "Axe", image_url := "//img.example/ax.png", count := 3, image_data := none },
        { name := "Sword", image_url := "//img.example/sword.png", count := 1,
          image_data := none }],
      win_rate := "60.2%", pick_rate := "55.1%", games := "1,234" }
    { name := "Axe", image_url := "//img.example/ax.png", count := 3, image_data := none }
    (by decide) (by decide)

end OpGgAram
